import Mathlib

/-!
A verification development for the clickhouse-proxy repository.  The
definitions below are a shallow embedding of `src/index.ts` (the
credential-injecting variant, which the specification declares canonical):
the YAML configuration loader, the `cloudflared` token fetch with its
in-process cache, and the per-request forwarding handler with its header
rewriting, upstream error path, and relayed status code.

Modelling conventions: JavaScript `undefined`/`null` is `Option.none`; the
JavaScript number `NaN` (which arises as `now + undefined`) is `none` in
the expiry field; JavaScript objects used as string maps are association
lists updated with exact-key insert-or-replace; the header map Node builds
for an outgoing request (keyed by the lowercased header name, replacement
on a case-insensitive match) is an association list updated with
case-insensitive insert-or-replace.
-/

/-- Configuration record (the TypeScript interface `ProxyConfig`).  The two
keys the spec calls optional, `tokenCacheDurationMs` and `cookieName`, are
modelled as `Option` because `loadConfig` neither validates nor defaults
them, so at runtime they can be `undefined` (`none`). -/
structure ProxyConfig where
  listenPort : Nat
  targetHost : String
  targetPort : Nat
  targetScheme : String
  cloudflaredAppUrl : String
  tokenCacheDurationMs : Option Nat
  cookieName : Option String
  clickhouseUsername : String
  clickhousePassword : String
deriving DecidableEq

/-- Proxy section of the YAML configuration file as parsed: any key may be
absent. -/
structure RawProxy where
  listenPort : Option Nat
  targetHost : Option String
  targetPort : Option Nat
  targetScheme : Option String
  cloudflaredAppUrl : Option String
  tokenCacheDurationMs : Option Nat
  cookieName : Option String
  clickhouseUsername : Option String
  clickhousePassword : Option String
deriving DecidableEq

/-- JavaScript `toLowerCase` restricted to the ASCII range, which covers
every header name and every literal the source compares against; defined
over the character list so that it evaluates by kernel reduction. -/
def lowerStr (s : String) : String := ⟨s.data.map Char.toLower⟩

/-- Whitespace stripped by JavaScript `trim`, restricted to the ASCII
whitespace characters. -/
def isJsWS (c : Char) : Bool := c == ' ' || c == '\t' || c == '\n' || c == '\r'

/-- JavaScript `String.prototype.trim`: drop whitespace from both ends. -/
def jsTrim (s : String) : String :=
  ⟨((s.data.dropWhile isJsWS).reverse.dropWhile isJsWS).reverse⟩

/-- Error text thrown by `loadConfig` for a missing field (the quote marks
the source puts around the field name are elided). -/
def missingFieldMsg (f : String) : String :=
  "Required field " ++ f ++ " is missing from proxy configuration."

/-- The required-field validation of `loadConfig`: the source checks exactly
these six fields, in this order; `targetScheme`, `tokenCacheDurationMs` and
`cookieName` are not checked.  On success the proxy section is returned
unchanged (no defaulting of any kind). -/
def loadConfigCheck (p : RawProxy) : Except String RawProxy :=
  match p.listenPort with
  | none => .error (missingFieldMsg "listenPort")
  | some _ =>
    match p.targetHost with
    | none => .error (missingFieldMsg "targetHost")
    | some _ =>
      match p.targetPort with
      | none => .error (missingFieldMsg "targetPort")
      | some _ =>
        match p.cloudflaredAppUrl with
        | none => .error (missingFieldMsg "cloudflaredAppUrl")
        | some _ =>
          match p.clickhouseUsername with
          | none => .error (missingFieldMsg "clickhouseUsername")
          | some _ =>
            match p.clickhousePassword with
            | none => .error (missingFieldMsg "clickhousePassword")
            | some _ => .ok p

/-- Result of running the `cloudflared access token` command: the promise
either rejects (non-zero exit or spawn failure) or resolves with a stdout
and a stderr string. -/
inductive ExecResult where
  | execError : ExecResult
  | ok : String → String → ExecResult
deriving DecidableEq

/-- `fetchToken`: fails (`none`) when the command rejected, when anything
was written on stderr, or when the trimmed stdout is empty; otherwise the
trimmed stdout is the token. -/
def fetchToken : ExecResult → Option String
  | .execError => none
  | .ok stdout stderr =>
    if stderr ≠ "" then none
    else if jsTrim stdout = "" then none
    else some (jsTrim stdout)

/-- The module-level mutable cache of `src/index.ts`: `cachedToken` starts
null and `tokenExpiry` starts 0.  The expiry is an `Option Nat` because
storing `now + undefined` in JavaScript yields `NaN`, modelled as
`none`. -/
structure CacheState where
  cachedToken : Option String
  tokenExpiry : Option Nat
deriving DecidableEq

/-- JavaScript truthiness of the cached token (null and the empty string
are falsy). -/
def tokenTruthy : Option String → Bool
  | none => false
  | some t => t != ""

/-- The comparison `now < tokenExpiry`; any comparison against NaN is
false. -/
def beforeExpiry (now : Nat) : Option Nat → Bool
  | some e => decide (now < e)
  | none => false

/-- Outcome of one `getToken` call: the returned value, the cache state
after the call, and how many times the external fetch was invoked. -/
structure GetTokenResult where
  returned : Option String
  state : CacheState
  fetchCalls : Nat
deriving DecidableEq

/-- `getToken`: serve the cached token on the hot path; otherwise invoke
the fetch exactly once, and on success store the token and set the expiry
to now plus the configured duration, on failure clear the token, reset the
expiry to 0 and return null instead of throwing. -/
def getToken (s : CacheState) (now : Nat) (tokenCacheDurationMs : Option Nat)
    (r : ExecResult) : GetTokenResult :=
  if tokenTruthy s.cachedToken && beforeExpiry now s.tokenExpiry then
    ⟨s.cachedToken, s, 0⟩
  else
    match fetchToken r with
    | some newToken =>
      ⟨some newToken, ⟨some newToken, tokenCacheDurationMs.map (fun d => now + d)⟩, 1⟩
    | none => ⟨none, ⟨none, some 0⟩, 1⟩

/-- The strip list of the credential-injecting variant, checked on the
lowercased inbound header name. -/
def stripKey (k : String) : Bool :=
  lowerStr k == "proxy-connection" || lowerStr k == "transfer-encoding" ||
    lowerStr k == "host" || lowerStr k == "authorization"

/-- JavaScript property assignment on a string-keyed object modelled as an
association list: replace the value at an exactly matching key, else
append. -/
def jsSet (m : List (String × String)) (k v : String) : List (String × String) :=
  if m.any (fun p => p.1 == k) then
    m.map (fun p => if p.1 == k then (k, v) else p)
  else m ++ [(k, v)]

/-- The copy loop of the handler: every inbound header whose lowercased
name is not on the strip list is copied into the fresh headers object. -/
def copyHeaders (inbound : List (String × String)) : List (String × String) :=
  inbound.foldl (fun m p => if stripKey p.1 then m else jsSet m p.1 p.2) []

/-- JavaScript template-literal interpolation of a possibly undefined
string. -/
def jsTemplate : Option String → String
  | some s => s
  | none => "undefined"

/-- Value of the injected cookie header. -/
def cookieHeaderValue (cookieName : Option String) (token : String) : String :=
  jsTemplate cookieName ++ "=" ++ token

/-- The headers object after the copy loop and the four injections. -/
def headersObject (cfg : ProxyConfig) (token : String)
    (inbound : List (String × String)) : List (String × String) :=
  jsSet (jsSet (jsSet (jsSet (copyHeaders inbound)
    "Host" cfg.targetHost)
    "Cookie" (cookieHeaderValue cfg.cookieName token))
    "X-ClickHouse-User" cfg.clickhouseUsername)
    "X-ClickHouse-Key" cfg.clickhousePassword

/-- Node stores outgoing headers keyed by the lowercased name, replacing
any case-insensitive match, so passing a headers object to `https.request`
folds it entry by entry through this case-insensitive set operation. -/
def setHeaderCI (m : List (String × String)) (k v : String) : List (String × String) :=
  if m.any (fun p => lowerStr p.1 == lowerStr k) then
    m.map (fun p => if lowerStr p.1 == lowerStr k then (k, v) else p)
  else m ++ [(k, v)]

/-- The header set actually serialized on the outbound request. -/
def nodeHeaders (obj : List (String × String)) : List (String × String) :=
  obj.foldl (fun m p => setHeaderCI m p.1 p.2) []

/-- Outbound header set of a forwarded request. -/
def outboundHeaders (cfg : ProxyConfig) (token : String)
    (inbound : List (String × String)) : List (String × String) :=
  nodeHeaders (headersObject cfg token inbound)

/-- Outbound request assembled by the handler; the scheme records which
client library opens the connection. -/
structure OutboundRequest where
  scheme : String
  hostname : String
  port : Nat
  path : String
  method : String
  headers : List (String × String)
deriving DecidableEq

/-- What the handler does with one inbound request once the token cache
has answered: either respond locally (status, content type, body) without
contacting upstream, or forward an outbound request. -/
inductive HandlerOutcome where
  | respond : Nat → String → String → HandlerOutcome
  | forward : OutboundRequest → HandlerOutcome
deriving DecidableEq

/-- The request handler of `startProxyServer` after the token cache has
answered: a falsy token yields the local 500; otherwise the outbound
request is built with the https client library regardless of
`targetScheme`, with the configured host and port and the inbound method
and url. -/
def handleRequest (cfg : ProxyConfig) (method url : String)
    (inbound : List (String × String)) (cfToken : Option String) :
    HandlerOutcome :=
  match cfToken with
  | none =>
    .respond 500 "text/plain"
      "Internal Server Error: Could not obtain authorization token."
  | some t =>
    if t = "" then
      .respond 500 "text/plain"
        "Internal Server Error: Could not obtain authorization token."
    else
      .forward
        ⟨"https", cfg.targetHost, cfg.targetPort, url, method,
          outboundHeaders cfg t inbound⟩

/-- Whether the handler produced an outbound request. -/
def isForward : HandlerOutcome → Bool
  | .forward _ => true
  | .respond _ _ _ => false

/-- Scheme of the outbound request, when one was produced. -/
def outScheme : HandlerOutcome → Option String
  | .forward r => some r.scheme
  | .respond _ _ _ => none

/-- What the error listener on the outbound request writes to the client:
an optional status line, an optional content type, and the data passed to
the final `end` call. -/
structure ErrorWrite where
  statusWritten : Option Nat
  contentTypeWritten : Option String
  bodyWritten : String
deriving DecidableEq

/-- The error listener of the outbound request: `writeHead` runs only when
`headersSent` is false, and the response is then ended, unconditionally,
with the Bad Gateway body. -/
def onProxyError (headersSent : Bool) (errMessage : String) : ErrorWrite :=
  if headersSent then ⟨none, none, "Bad Gateway: " ++ errMessage⟩
  else ⟨some 502, some "text/plain", "Bad Gateway: " ++ errMessage⟩

/-- Status code written back to the client: `statusCode` or-else 200, so an
absent or zero upstream status silently becomes 200. -/
def relayStatus : Option Nat → Nat
  | none => 200
  | some s => if s = 0 then 200 else s

/-- Value of the last entry whose key lowercases to the query, read off an
association list of headers. -/
def lastCI : List (String × String) → String → Option String
  | [], _ => none
  | p :: t, l =>
    match lastCI t l with
    | some v => some v
    | none => if lowerStr p.1 == l then some p.2 else none

/-- Number of entries whose key lowercases to the query. -/
def countCI : List (String × String) → String → Nat
  | [], _ => 0
  | p :: t, l => (if lowerStr p.1 == l then 1 else 0) + countCI t l

/-- Example configuration used by the concrete witnesses below. -/
def cfgEx : ProxyConfig :=
  ⟨9090, "db.example.com", 443, "https", "https://app.example",
    some 300000, some "CF_Authorization", "alice", "secret"⟩

/-- Example configuration whose target scheme is plain http. -/
def cfgHttp : ProxyConfig :=
  ⟨9090, "db.example.com", 8123, "http", "https://app.example",
    some 300000, some "CF_Authorization", "alice", "secret"⟩

/-- Example raw configuration missing only the target scheme. -/
def rawNoScheme : RawProxy :=
  ⟨some 9090, some "db.example.com", some 443, none, some "https://app.example",
    some 300000, some "CF_Authorization", some "alice", some "secret"⟩

/-- Example raw configuration missing the listen port. -/
def rawNoPort : RawProxy :=
  ⟨none, some "db.example.com", some 443, some "https", some "https://app.example",
    some 300000, some "CF_Authorization", some "alice", some "secret"⟩

/-- Reading the last case-insensitive match distributes over append. -/
theorem lastCI_append (a b : List (String × String)) (l : String) :
    lastCI (a ++ b) l =
      match lastCI b l with
      | some v => some v
      | none => lastCI a l := by
  induction a with
  | nil => cases h : lastCI b l <;> simp [lastCI, h]
  | cons p t ih =>
    simp only [List.cons_append, lastCI]
    rw [show (t ++ b : List (String × String)) = t.append b from rfl] at ih
    rw [ih]
    cases h : lastCI b l <;> cases h2 : lastCI t l <;> simp [h, h2]

/-- Counting case-insensitive matches distributes over append. -/
theorem countCI_append (a b : List (String × String)) (l : String) :
    countCI (a ++ b) l = countCI a l + countCI b l := by
  induction a with
  | nil => simp [countCI]
  | cons p t ih =>
    simp only [List.cons_append, countCI]
    rw [show (t ++ b : List (String × String)) = t.append b from rfl] at ih
    rw [ih]
    omega

/-- A list with no case-insensitive match has no last match. -/
theorem lastCI_none_of_any_false (m : List (String × String)) (l : String)
    (h : m.any (fun p => lowerStr p.1 == l) = false) : lastCI m l = none := by
  induction m with
  | nil => rfl
  | cons p t ih =>
    simp only [List.any_cons, Bool.or_eq_false_iff] at h
    simp [lastCI, ih h.2, h.1]

/-- A list with no case-insensitive match has count zero. -/
theorem countCI_zero_of_any_false (m : List (String × String)) (l : String)
    (h : m.any (fun p => lowerStr p.1 == l) = false) : countCI m l = 0 := by
  induction m with
  | nil => rfl
  | cons p t ih =>
    simp only [List.any_cons, Bool.or_eq_false_iff] at h
    simp [countCI, ih h.2, h.1]

/-- A list with a case-insensitive match has positive count. -/
theorem countCI_ne_zero_of_any_true (m : List (String × String)) (l : String)
    (h : m.any (fun p => lowerStr p.1 == l) = true) : countCI m l ≠ 0 := by
  induction m with
  | nil => simp at h
  | cons p t ih =>
    simp only [List.any_cons, Bool.or_eq_true] at h
    rcases h with h | h
    · simp [countCI, h]
    · have := ih h
      simp only [countCI]
      omega

/-- Replacing every case-insensitive match of some other key leaves the
last match for this key unchanged. -/
theorem lastCI_map_other (m : List (String × String)) (k v : String) (l : String)
    (hkl : (lowerStr k == l) = false) :
    lastCI (m.map (fun p => if lowerStr p.1 == lowerStr k then (k, v) else p)) l =
      lastCI m l := by
  induction m with
  | nil => rfl
  | cons p t ih =>
    simp only [List.map_cons, lastCI, ih]
    cases h : lastCI t l
    · by_cases hp : (lowerStr p.1 == lowerStr k) = true
      · have he : lowerStr p.1 = lowerStr k := eq_of_beq hp
        simp [hp, he, hkl]
      · simp at hp
        simp [hp]
    · simp

/-- Replacing case-insensitive matches is the identity when there is no
match. -/
theorem map_id_of_any_false (m : List (String × String)) (k v : String)
    (h : m.any (fun p => lowerStr p.1 == lowerStr k) = false) :
    m.map (fun p => if lowerStr p.1 == lowerStr k then (k, v) else p) = m := by
  induction m with
  | nil => rfl
  | cons p t ih =>
    simp only [List.any_cons, Bool.or_eq_false_iff] at h
    simp only [List.map_cons]
    rw [h.1, ih h.2]
    simp

/-- After replacing every case-insensitive match of a key, the last match
for that key holds the new value, provided a match existed. -/
theorem lastCI_map_self (m : List (String × String)) (k v : String)
    (h : m.any (fun p => lowerStr p.1 == lowerStr k) = true) :
    lastCI (m.map (fun p => if lowerStr p.1 == lowerStr k then (k, v) else p))
      (lowerStr k) = some v := by
  induction m with
  | nil => simp at h
  | cons p t ih =>
    simp only [List.map_cons, lastCI]
    cases ht : t.any (fun p => lowerStr p.1 == lowerStr k)
    · rw [map_id_of_any_false t k v ht, lastCI_none_of_any_false t (lowerStr k) ht]
      simp only [List.any_cons, ht, Bool.or_false] at h
      simp [h]
    · rw [ih ht]

/-- Replacing case-insensitive matches of a key preserves every count. -/
theorem countCI_map_replace (m : List (String × String)) (k v : String) (l : String) :
    countCI (m.map (fun p => if lowerStr p.1 == lowerStr k then (k, v) else p)) l =
      countCI m l := by
  induction m with
  | nil => rfl
  | cons p t ih =>
    simp only [List.map_cons, countCI, ih]
    by_cases hp : (lowerStr p.1 == lowerStr k) = true
    · have he : lowerStr p.1 = lowerStr k := eq_of_beq hp
      simp [hp, he]
    · rw [Bool.not_eq_true] at hp
      simp [hp]

/-- Effect of one case-insensitive header-set step on the last match. -/
theorem lastCI_setHeaderCI (m : List (String × String)) (k v : String) (l : String) :
    lastCI (setHeaderCI m k v) l =
      if lowerStr k == l then some v else lastCI m l := by
  unfold setHeaderCI
  cases hany : (m.any fun p => lowerStr p.1 == lowerStr k)
  · simp only [hany, Bool.false_eq_true, if_false]
    rw [lastCI_append]
    cases hkl : (lowerStr k == l) <;> simp [lastCI, hkl]
  · simp only [hany, if_true]
    cases hkl : (lowerStr k == l)
    · rw [lastCI_map_other m k v l hkl]
      simp [hkl]
    · have he : lowerStr k = l := eq_of_beq hkl
      rw [← he, lastCI_map_self m k v hany]
      simp

/-- Effect of one case-insensitive header-set step on a count. -/
theorem countCI_setHeaderCI (m : List (String × String)) (k v : String) (l : String) :
    countCI (setHeaderCI m k v) l =
      if lowerStr k == l then (if countCI m l = 0 then 1 else countCI m l)
      else countCI m l := by
  unfold setHeaderCI
  cases hany : (m.any fun p => lowerStr p.1 == lowerStr k)
  · simp only [hany, Bool.false_eq_true, if_false]
    rw [countCI_append]
    cases hkl : (lowerStr k == l)
    · simp [countCI, hkl]
    · have he : lowerStr k = l := eq_of_beq hkl
      rw [he] at hany
      have hz : countCI m l = 0 := countCI_zero_of_any_false m l hany
      simp [countCI, hkl, hz]
  · simp only [hany, if_true]
    rw [countCI_map_replace]
    cases hkl : (lowerStr k == l)
    · simp [hkl]
    · have he : lowerStr k = l := eq_of_beq hkl
      rw [he] at hany
      have hnz := countCI_ne_zero_of_any_true m l hany
      simp [hkl, hnz]

/-- Folding entries through the case-insensitive set: the last match of the
result is the last match of the folded entries, else of the
accumulator. -/
theorem lastCI_foldl_set (obj : List (String × String)) :
    ∀ (acc : List (String × String)) (l : String),
    lastCI (obj.foldl (fun m p => setHeaderCI m p.1 p.2) acc) l =
      match lastCI obj l with
      | some v => some v
      | none => lastCI acc l := by
  induction obj with
  | nil => intro acc l; simp [lastCI]
  | cons q t ih =>
    intro acc l
    simp only [List.foldl_cons, lastCI]
    rw [ih]
    cases h : lastCI t l
    · rw [lastCI_setHeaderCI]
      cases hkl : (lowerStr q.1 == l) <;> simp [hkl]
    · simp

/-- Folding entries through the case-insensitive set: each name occurs at
most once, and exactly once when some folded entry carries it. -/
theorem countCI_foldl_set (obj : List (String × String)) :
    ∀ (acc : List (String × String)) (l : String),
    countCI (obj.foldl (fun m p => setHeaderCI m p.1 p.2) acc) l =
      if countCI acc l = 0 then
        (if obj.any (fun p => lowerStr p.1 == l) then 1 else 0)
      else countCI acc l := by
  induction obj with
  | nil =>
    intro acc l
    by_cases h : countCI acc l = 0 <;> simp [h]
  | cons q t ih =>
    intro acc l
    simp only [List.foldl_cons, List.any_cons]
    rw [ih, countCI_setHeaderCI]
    by_cases hkl : (lowerStr q.1 == l) = true
    · by_cases hz : countCI acc l = 0 <;> simp [hkl, hz]
    · rw [Bool.not_eq_true] at hkl
      simp only [hkl, Bool.false_or, Bool.false_eq_true, if_false]

/-- The serialized header set keeps the last case-insensitive value for
every name. -/
theorem lastCI_nodeHeaders (obj : List (String × String)) (l : String) :
    lastCI (nodeHeaders obj) l = lastCI obj l := by
  unfold nodeHeaders
  rw [lastCI_foldl_set]
  cases h : lastCI obj l <;> simp [lastCI]

/-- The serialized header set carries a name exactly once when it occurs in
the headers object, and never otherwise. -/
theorem countCI_nodeHeaders (obj : List (String × String)) (l : String) :
    countCI (nodeHeaders obj) l =
      if obj.any (fun p => lowerStr p.1 == l) then 1 else 0 := by
  unfold nodeHeaders
  rw [countCI_foldl_set]
  simp [countCI]

/-- Entries of a JavaScript object update satisfy any property holding for
the old entries and the assigned pair. -/
theorem jsSet_forall {P : String × String → Prop} (m : List (String × String))
    (k v : String) (hm : ∀ q ∈ m, P q) (hk : P (k, v)) :
    ∀ q ∈ jsSet m k v, P q := by
  unfold jsSet
  cases h : (m.any fun p => p.1 == k)
  · simp only [Bool.false_eq_true, if_false]
    intro q hq
    rcases List.mem_append.1 hq with h2 | h2
    · exact hm q h2
    · rw [List.mem_singleton] at h2
      exact h2 ▸ hk
  · simp only [if_true]
    intro q hq
    rw [List.mem_map] at hq
    obtain ⟨p, hp, hq⟩ := hq
    cases hpk : (p.1 == k)
    · simp only [hpk, Bool.false_eq_true, if_false] at hq
      exact hq ▸ hm p hp
    · simp only [hpk, if_true] at hq
      exact hq ▸ hk

/-- Entries of the copy loop satisfy any property holding for the
accumulator entries and the non-stripped inbound entries. -/
theorem copyFold_forall {P : String × String → Prop} :
    ∀ (l acc : List (String × String)),
    (∀ q ∈ acc, P q) → (∀ p ∈ l, stripKey p.1 = false → P p) →
    ∀ q ∈ l.foldl (fun m p => if stripKey p.1 then m else jsSet m p.1 p.2) acc, P q := by
  intro l
  induction l with
  | nil => intro acc ha _ q hq; exact ha q hq
  | cons p t ih =>
    intro acc ha hl
    obtain ⟨pk, pv⟩ := p
    simp only [List.foldl_cons]
    cases hsp : stripKey pk
    · simp only [hsp, Bool.false_eq_true, if_false]
      refine ih (jsSet acc pk pv) ?_ (fun q hq hs => hl q (List.mem_cons_of_mem _ hq) hs)
      exact jsSet_forall acc pk pv ha
        (hl (pk, pv) (List.mem_cons_self _ _) hsp)
    · simp only [hsp, if_true]
      exact ih acc ha (fun q hq hs => hl q (List.mem_cons_of_mem _ hq) hs)

/-- No stripped name survives the copy loop. -/
theorem copyHeaders_no_strip (inbound : List (String × String)) :
    ∀ q ∈ copyHeaders inbound, stripKey q.1 = false := by
  unfold copyHeaders
  exact copyFold_forall inbound [] (by simp) (fun p _ h => h)

/-- When the inbound names are lowercase, so are the copied names. -/
theorem copyHeaders_lower (inbound : List (String × String))
    (hlc : ∀ p ∈ inbound, lowerStr p.1 = p.1) :
    ∀ q ∈ copyHeaders inbound, lowerStr q.1 = q.1 := by
  unfold copyHeaders
  exact copyFold_forall inbound [] (by simp) (fun p hp _ => hlc p hp)

/-- Two pointwise equal predicates agree on any. -/
theorem any_congr_mem {α : Type} (l : List α) (f g : α → Bool)
    (h : ∀ a ∈ l, f a = g a) : l.any f = l.any g := by
  induction l with
  | nil => rfl
  | cons a t ih =>
    simp only [List.any_cons]
    rw [h a (List.mem_cons_self _ _), ih (fun b hb => h b (List.mem_cons_of_mem _ hb))]

/-- Two pointwise equal functions agree on map. -/
theorem map_congr_mem {α β : Type} (l : List α) (f g : α → β)
    (h : ∀ a ∈ l, f a = g a) : l.map f = l.map g := by
  induction l with
  | nil => rfl
  | cons a t ih =>
    simp only [List.map_cons]
    rw [h a (List.mem_cons_self _ _), ih (fun b hb => h b (List.mem_cons_of_mem _ hb))]

/-- On lowercase keys the exact-key object update coincides with the
case-insensitive header update. -/
theorem jsSet_eq_setHeaderCI (m : List (String × String)) (k v : String)
    (hm : ∀ q ∈ m, lowerStr q.1 = q.1) (hk : lowerStr k = k) :
    jsSet m k v = setHeaderCI m k v := by
  unfold jsSet setHeaderCI
  have hc : ∀ q ∈ m, (q.1 == k) = (lowerStr q.1 == lowerStr k) := by
    intro q hq
    rw [hm q hq, hk]
  rw [any_congr_mem m _ _ hc]
  rw [map_congr_mem m
    (fun p => if p.1 == k then (k, v) else p)
    (fun p => if lowerStr p.1 == lowerStr k then (k, v) else p) ?_]
  intro p hp
  simp only [hc p hp]

/-- The copy loop, read through a lowercase non-stripped name: the last
match comes from the inbound list, else from the accumulator. -/
theorem copyFold_lastCI :
    ∀ (l acc : List (String × String)) (ql : String),
    (∀ p ∈ l, lowerStr p.1 = p.1) → (∀ q ∈ acc, lowerStr q.1 = q.1) →
    lowerStr ql = ql → stripKey ql = false →
    lastCI (l.foldl (fun m p => if stripKey p.1 then m else jsSet m p.1 p.2) acc) ql =
      match lastCI l ql with
      | some w => some w
      | none => lastCI acc ql := by
  intro l
  induction l with
  | nil => intro acc ql _ _ _ _; simp [lastCI]
  | cons p t ih =>
    intro acc ql hl ha hql hqs
    obtain ⟨pk, pv⟩ := p
    have hpk : lowerStr pk = pk := hl (pk, pv) (List.mem_cons_self _ _)
    simp only [List.foldl_cons, lastCI]
    cases hsp : stripKey pk
    · simp only [hsp, Bool.false_eq_true, if_false]
      rw [ih (jsSet acc pk pv) ql (fun q hq => hl q (List.mem_cons_of_mem _ hq))
        (jsSet_forall acc pk pv ha hpk) hql hqs]
      rw [jsSet_eq_setHeaderCI acc pk pv ha hpk, lastCI_setHeaderCI]
      cases h : lastCI t ql
      · cases hkl : (lowerStr pk == ql) <;> simp [hkl]
      · simp
    · simp only [hsp, if_true]
      rw [ih acc ql (fun q hq => hl q (List.mem_cons_of_mem _ hq)) ha hql hqs]
      have hkl : (lowerStr pk == ql) = false := by
        cases hb : (lowerStr pk == ql)
        · rfl
        · exfalso
          have he : lowerStr pk = ql := eq_of_beq hb
          rw [hpk] at he
          rw [← he] at hqs
          rw [hqs] at hsp
          exact Bool.noConfusion hsp
      cases h : lastCI t ql <;> simp [h, hkl]

/-- A fresh exact key appends. -/
theorem jsSet_append (m : List (String × String)) (k v : String)
    (h : (m.any fun p => p.1 == k) = false) : jsSet m k v = m ++ [(k, v)] := by
  simp [jsSet, h]

/-- A key that is not its own lowercasing never matches a lowercase-keyed
list exactly. -/
theorem any_key_false_of_lower (m : List (String × String)) (k : String)
    (hm : ∀ q ∈ m, lowerStr q.1 = q.1) (hk : lowerStr k ≠ k) :
    (m.any fun p => p.1 == k) = false := by
  induction m with
  | nil => rfl
  | cons q t ih =>
    simp only [List.any_cons, Bool.or_eq_false_iff]
    refine ⟨?_, ih (fun q hq => hm q (List.mem_cons_of_mem _ hq))⟩
    cases hb : (q.1 == k)
    · rfl
    · exfalso
      have he : q.1 = k := eq_of_beq hb
      have hq := hm q (List.mem_cons_self _ _)
      rw [he] at hq
      exact hk hq

/-- With lowercase inbound names, the headers object is the copied list
followed, in order, by the four injected entries. -/
theorem headersObject_decomp (cfg : ProxyConfig) (token : String)
    (inbound : List (String × String))
    (hlc : ∀ p ∈ inbound, lowerStr p.1 = p.1) :
    headersObject cfg token inbound = copyHeaders inbound ++
      [("Host", cfg.targetHost), ("Cookie", cookieHeaderValue cfg.cookieName token),
       ("X-ClickHouse-User", cfg.clickhouseUsername),
       ("X-ClickHouse-Key", cfg.clickhousePassword)] := by
  have hc := copyHeaders_lower inbound hlc
  have h1 : ((copyHeaders inbound).any fun p => p.1 == "Host") = false :=
    any_key_false_of_lower _ _ hc (by decide)
  have h2 : ((copyHeaders inbound ++ [("Host", cfg.targetHost)]).any
      fun p => p.1 == "Cookie") = false := by
    rw [List.any_append, any_key_false_of_lower _ _ hc (by decide)]
    simp [show (("Host" : String) == "Cookie") = false from rfl]
  have h3 : (((copyHeaders inbound ++ [("Host", cfg.targetHost)]) ++
      [("Cookie", cookieHeaderValue cfg.cookieName token)]).any
      fun p => p.1 == "X-ClickHouse-User") = false := by
    rw [List.any_append, List.any_append,
      any_key_false_of_lower _ _ hc (by decide)]
    simp [show (("Host" : String) == "X-ClickHouse-User") = false from rfl,
      show (("Cookie" : String) == "X-ClickHouse-User") = false from rfl]
  have h4 : ((((copyHeaders inbound ++ [("Host", cfg.targetHost)]) ++
      [("Cookie", cookieHeaderValue cfg.cookieName token)]) ++
      [("X-ClickHouse-User", cfg.clickhouseUsername)]).any
      fun p => p.1 == "X-ClickHouse-Key") = false := by
    rw [List.any_append, List.any_append, List.any_append,
      any_key_false_of_lower _ _ hc (by decide)]
    simp [show (("Host" : String) == "X-ClickHouse-Key") = false from rfl,
      show (("Cookie" : String) == "X-ClickHouse-Key") = false from rfl,
      show (("X-ClickHouse-User" : String) == "X-ClickHouse-Key") = false from rfl]
  unfold headersObject
  rw [jsSet_append _ _ _ h1, jsSet_append _ _ _ h2, jsSet_append _ _ _ h3,
    jsSet_append _ _ _ h4]
  simp [List.append_assoc]

/-- C3: while a non-empty cached token exists and the current time is
strictly before the recorded expiry, getToken returns that cached token,
leaves the cache unchanged, and performs zero invocations of the external
fetch operation. -/
theorem getToken_cache_hit (s : CacheState) (now : Nat) (dur : Option Nat)
    (r : ExecResult) (t : String) (e : Nat)
    (htok : s.cachedToken = some t) (hne : t ≠ "")
    (hexp : s.tokenExpiry = some e) (hlt : now < e) :
    getToken s now dur r = ⟨some t, s, 0⟩ := by
  simp [getToken, htok, hexp, tokenTruthy, beforeExpiry, hne, hlt]

/-- Witness for the cache-hit theorem at a concrete state and time. -/
theorem getToken_cache_hit_witness :
    getToken ⟨some "tok", some 10⟩ 5 (some 300000) .execError =
      ⟨some "tok", ⟨some "tok", some 10⟩, 0⟩ :=
  getToken_cache_hit ⟨some "tok", some 10⟩ 5 (some 300000) .execError
    "tok" 10 rfl (by decide) rfl (by decide)

/-- C4: when no valid cached token exists (the hot-path condition is
false), getToken invokes the external fetch exactly once, and on success
stores the new token, records expiry equal to the fetch-time plus the
configured cache duration, and returns the new token. -/
theorem getToken_cache_miss_success (s : CacheState) (now : Nat) (d : Nat)
    (r : ExecResult) (tok : String)
    (hmiss : (tokenTruthy s.cachedToken && beforeExpiry now s.tokenExpiry) = false)
    (hfetch : fetchToken r = some tok) :
    getToken s now (some d) r = ⟨some tok, ⟨some tok, some (now + d)⟩, 1⟩ := by
  simp [getToken, hmiss, hfetch]

/-- Witness for the cache-miss success theorem at a concrete input. -/
theorem getToken_cache_miss_success_witness :
    getToken ⟨none, some 0⟩ 7 (some 300000) (.ok "abc" "") =
      ⟨some "abc", ⟨some "abc", some 300007⟩, 1⟩ :=
  getToken_cache_miss_success ⟨none, some 0⟩ 7 300000 (.ok "abc" "") "abc"
    (by decide) (by decide)

/-- C5: when the fetch is attempted and fails by any of the three failure
modes (rejected command, diagnostic output on stderr, empty trimmed
output), getToken clears the cached token, resets the expiry to the
already-expired value 0, and returns null; from the resulting state every
subsequent call attempts a fresh fetch. -/
theorem getToken_fetch_failure (s : CacheState) (now : Nat) (dur : Option Nat)
    (r : ExecResult)
    (hmiss : (tokenTruthy s.cachedToken && beforeExpiry now s.tokenExpiry) = false)
    (hfail : r = .execError ∨ (∃ o e, r = .ok o e ∧ e ≠ "") ∨
      (∃ o, r = .ok o "" ∧ jsTrim o = "")) :
    getToken s now dur r = ⟨none, ⟨none, some 0⟩, 1⟩ ∧
      ∀ (now2 : Nat) (dur2 : Option Nat) (r2 : ExecResult),
        (getToken ⟨none, some 0⟩ now2 dur2 r2).fetchCalls = 1 := by
  have hf : fetchToken r = none := by
    rcases hfail with h | ⟨o, e, h, hne⟩ | ⟨o, h, ht⟩
    · subst h; rfl
    · subst h; simp [fetchToken, hne]
    · subst h; simp [fetchToken, ht]
  refine ⟨by simp [getToken, hmiss, hf], ?_⟩
  intro now2 dur2 r2
  simp only [getToken, tokenTruthy, Bool.false_and, Bool.and_eq_true]
  cases h2 : fetchToken r2 <;> simp [h2]

/-- Witness for the fetch-failure theorem: empty output at an expired
cache clears the token and resets the expiry. -/
theorem getToken_fetch_failure_witness :
    getToken ⟨some "old", some 100⟩ 100 (some 1000) (.ok "" "") =
      ⟨none, ⟨none, some 0⟩, 1⟩ :=
  (getToken_fetch_failure ⟨some "old", some 100⟩ 100 (some 1000) (.ok "" "")
    (by decide) (Or.inr (Or.inr ⟨"", rfl, rfl⟩))).1

/-- C2: when the token cache answers null the handler responds 500 with a
plain-text body and never produces an outbound request. -/
theorem no_token_fail_closed (cfg : ProxyConfig) (method url : String)
    (inbound : List (String × String)) :
    handleRequest cfg method url inbound none =
      .respond 500 "text/plain"
        "Internal Server Error: Could not obtain authorization token." ∧
    isForward (handleRequest cfg method url inbound none) = false :=
  ⟨rfl, rfl⟩

/-- C6 (amended): every forwarded request goes to the configured target
host and port with the inbound method and url unchanged, but always over
the https client library, independent of the configured target scheme. -/
theorem forward_always_https (cfg : ProxyConfig) (method url : String)
    (inbound : List (String × String)) (t : String) (ht : t ≠ "") :
    handleRequest cfg method url inbound (some t) =
      .forward ⟨"https", cfg.targetHost, cfg.targetPort, url, method,
        outboundHeaders cfg t inbound⟩ := by
  simp [handleRequest, ht]

/-- Witness for the forwarding theorem at a concrete request. -/
theorem forward_always_https_witness :
    handleRequest cfgEx "GET" "/?query=SELECT+1" [] (some "tok") =
      .forward ⟨"https", cfgEx.targetHost, cfgEx.targetPort, "/?query=SELECT+1",
        "GET", outboundHeaders cfgEx "tok" []⟩ :=
  forward_always_https cfgEx "GET" "/?query=SELECT+1" [] "tok" (by decide)

/-- C6 counterexample: with targetScheme configured as http, the outbound
connection is still opened by the https client. -/
theorem scheme_config_ignored :
    cfgHttp.targetScheme = "http" ∧
    outScheme (handleRequest cfgHttp "GET" "/" [] (some "tok")) = some "https" ∧
    (("https" : String) == cfgHttp.targetScheme) = false :=
  ⟨rfl, rfl, rfl⟩

/-- C7 (amended): a transport error before response headers were sent
yields a 502 status with a plain-text Bad Gateway body carrying the error
message; with headers already sent no status is written, but the Bad
Gateway text is still written as the final body data before the response
is ended. -/
theorem upstream_error_response (msg : String) :
    onProxyError false msg =
      ⟨some 502, some "text/plain", "Bad Gateway: " ++ msg⟩ ∧
    onProxyError true msg = ⟨none, none, "Bad Gateway: " ++ msg⟩ :=
  ⟨rfl, rfl⟩

/-- C7 counterexample: after headers were already sent the handler still
writes a non-empty Bad Gateway body, rather than terminating with nothing
further written. -/
theorem headers_sent_still_writes_body :
    (onProxyError true "socket hang up").bodyWritten =
      "Bad Gateway: socket hang up" ∧
    ((onProxyError true "socket hang up").bodyWritten == "") = false :=
  ⟨rfl, rfl⟩

/-- C10: the status relayed to the client is the upstream status when it is
present and non-zero, and 200 when it is absent or zero. -/
theorem relayed_status_propagation :
    relayStatus none = 200 ∧ relayStatus (some 0) = 200 ∧
      ∀ s : Nat, s ≠ 0 → relayStatus (some s) = s := by
  refine ⟨rfl, rfl, ?_⟩
  intro s hs
  simp [relayStatus, hs]

/-- Witness for the relayed-status theorem at a concrete status. -/
theorem relayed_status_propagation_witness : relayStatus (some 404) = 404 :=
  relayed_status_propagation.2.2 404 (by decide)

/-- C8 (amended): loadConfig validates exactly six required fields, in
order, failing with an error naming the first missing one, and succeeds
when all six are present; targetScheme is not among the validated
fields. -/
theorem loadConfig_required_fields (p : RawProxy) :
    (p.listenPort = none →
      loadConfigCheck p = .error (missingFieldMsg "listenPort")) ∧
    (p.listenPort ≠ none → p.targetHost = none →
      loadConfigCheck p = .error (missingFieldMsg "targetHost")) ∧
    (p.listenPort ≠ none → p.targetHost ≠ none → p.targetPort = none →
      loadConfigCheck p = .error (missingFieldMsg "targetPort")) ∧
    (p.listenPort ≠ none → p.targetHost ≠ none → p.targetPort ≠ none →
      p.cloudflaredAppUrl = none →
      loadConfigCheck p = .error (missingFieldMsg "cloudflaredAppUrl")) ∧
    (p.listenPort ≠ none → p.targetHost ≠ none → p.targetPort ≠ none →
      p.cloudflaredAppUrl ≠ none → p.clickhouseUsername = none →
      loadConfigCheck p = .error (missingFieldMsg "clickhouseUsername")) ∧
    (p.listenPort ≠ none → p.targetHost ≠ none → p.targetPort ≠ none →
      p.cloudflaredAppUrl ≠ none → p.clickhouseUsername ≠ none →
      p.clickhousePassword = none →
      loadConfigCheck p = .error (missingFieldMsg "clickhousePassword")) ∧
    (p.listenPort ≠ none → p.targetHost ≠ none → p.targetPort ≠ none →
      p.cloudflaredAppUrl ≠ none → p.clickhouseUsername ≠ none →
      p.clickhousePassword ≠ none → loadConfigCheck p = .ok p) := by
  obtain ⟨lp, th, tp, ts, cf, dm, cn, cu, cp⟩ := p
  cases lp <;> cases th <;> cases tp <;> cases cf <;> cases cu <;> cases cp <;>
    simp [loadConfigCheck]

/-- Witness for the validation theorem: a configuration missing its listen
port is rejected with an error naming listenPort. -/
theorem loadConfig_required_fields_witness :
    loadConfigCheck rawNoPort = .error (missingFieldMsg "listenPort") :=
  (loadConfig_required_fields rawNoPort).1 rfl

/-- C8 counterexample: a configuration with every key present except
targetScheme passes validation, so startup does not fail naming that
field. -/
theorem required_scheme_not_checked :
    rawNoScheme.targetScheme = none ∧
    loadConfigCheck rawNoScheme = .ok rawNoScheme :=
  ⟨rfl, rfl⟩

/-- C1: for every forwarded request whose inbound header names are
lowercase (as the Node runtime delivers them), the outbound header set
contains no Proxy-Connection, Transfer-Encoding or Authorization header,
exactly one Host header valued at the configured target host, exactly one
Cookie header valued cookieName=token, exactly one X-ClickHouse-User
header with the configured username, exactly one X-ClickHouse-Key header
with the configured password, and every other inbound header passes
through with its value, so the outbound set is the inbound set minus the
strip list plus the injected headers. -/
theorem outbound_header_set_spec (cfg : ProxyConfig) (token : String)
    (inbound : List (String × String)) (name : String)
    (hlc : ∀ p ∈ inbound, lowerStr p.1 = p.1)
    (hcn : cfg.cookieName = some name) :
    countCI (outboundHeaders cfg token inbound) "proxy-connection" = 0 ∧
    countCI (outboundHeaders cfg token inbound) "transfer-encoding" = 0 ∧
    countCI (outboundHeaders cfg token inbound) "authorization" = 0 ∧
    countCI (outboundHeaders cfg token inbound) "host" = 1 ∧
    lastCI (outboundHeaders cfg token inbound) "host" = some cfg.targetHost ∧
    countCI (outboundHeaders cfg token inbound) "cookie" = 1 ∧
    lastCI (outboundHeaders cfg token inbound) "cookie" =
      some (name ++ "=" ++ token) ∧
    countCI (outboundHeaders cfg token inbound) "x-clickhouse-user" = 1 ∧
    lastCI (outboundHeaders cfg token inbound) "x-clickhouse-user" =
      some cfg.clickhouseUsername ∧
    countCI (outboundHeaders cfg token inbound) "x-clickhouse-key" = 1 ∧
    lastCI (outboundHeaders cfg token inbound) "x-clickhouse-key" =
      some cfg.clickhousePassword ∧
    ∀ l : String, lowerStr l = l →
      l ≠ "proxy-connection" → l ≠ "transfer-encoding" → l ≠ "host" →
      l ≠ "authorization" → l ≠ "cookie" → l ≠ "x-clickhouse-user" →
      l ≠ "x-clickhouse-key" →
      lastCI (outboundHeaders cfg token inbound) l = lastCI inbound l := by
  have hco := copyHeaders_no_strip inbound
  have hdec := headersObject_decomp cfg token inbound hlc
  set four : List (String × String) :=
    [("Host", cfg.targetHost), ("Cookie", cookieHeaderValue cfg.cookieName token),
     ("X-ClickHouse-User", cfg.clickhouseUsername),
     ("X-ClickHouse-Key", cfg.clickhousePassword)] with hfour
  have hout : ∀ l, countCI (outboundHeaders cfg token inbound) l =
      if (copyHeaders inbound ++ four).any (fun p => lowerStr p.1 == l) then 1
      else 0 := by
    intro l
    unfold outboundHeaders
    rw [hdec, countCI_nodeHeaders]
  have houtl : ∀ l, lastCI (outboundHeaders cfg token inbound) l =
      lastCI (copyHeaders inbound ++ four) l := by
    intro l
    unfold outboundHeaders
    rw [hdec, lastCI_nodeHeaders]
  have hsany : ∀ l, stripKey l = true → lowerStr l = l →
      ((copyHeaders inbound).any fun p => lowerStr p.1 == l) = false := by
    intro l hstrip hlow
    cases hb : ((copyHeaders inbound).any fun p => lowerStr p.1 == l)
    · rfl
    · exfalso
      rw [List.any_eq_true] at hb
      obtain ⟨q, hq, hql⟩ := hb
      have he : lowerStr q.1 = l := eq_of_beq hql
      have hns := hco q hq
      unfold stripKey at hns hstrip
      rw [he] at hns
      rw [hlow] at hstrip
      rw [hns] at hstrip
      exact Bool.noConfusion hstrip
  have hfa : ∀ l : String, (four.any fun p => lowerStr p.1 == l) =
      (("host" == l) || ("cookie" == l) || ("x-clickhouse-user" == l) ||
        ("x-clickhouse-key" == l)) := by
    intro l
    simp only [hfour, List.any_cons, List.any_nil,
      show lowerStr "Host" = "host" from rfl,
      show lowerStr "Cookie" = "cookie" from rfl,
      show lowerStr "X-ClickHouse-User" = "x-clickhouse-user" from rfl,
      show lowerStr "X-ClickHouse-Key" = "x-clickhouse-key" from rfl,
      Bool.or_false, Bool.or_assoc]
  have hl_host : lastCI four "host" = some cfg.targetHost := by
    simp [hfour, lastCI,
      show (lowerStr "X-ClickHouse-Key" == "host") = false from rfl,
      show (lowerStr "X-ClickHouse-User" == "host") = false from rfl,
      show (lowerStr "Cookie" == "host") = false from rfl,
      show (lowerStr "Host" == "host") = true from rfl]
  have hl_cookie : lastCI four "cookie" =
      some (cookieHeaderValue cfg.cookieName token) := by
    simp [hfour, lastCI,
      show (lowerStr "X-ClickHouse-Key" == "cookie") = false from rfl,
      show (lowerStr "X-ClickHouse-User" == "cookie") = false from rfl,
      show (lowerStr "Cookie" == "cookie") = true from rfl]
  have hl_user : lastCI four "x-clickhouse-user" =
      some cfg.clickhouseUsername := by
    simp [hfour, lastCI,
      show (lowerStr "X-ClickHouse-Key" == "x-clickhouse-user") = false from rfl,
      show (lowerStr "X-ClickHouse-User" == "x-clickhouse-user") = true from rfl]
  have hl_key : lastCI four "x-clickhouse-key" =
      some cfg.clickhousePassword := by
    simp [hfour, lastCI,
      show (lowerStr "X-ClickHouse-Key" == "x-clickhouse-key") = true from rfl]
  refine ⟨?_, ?_, ?_, ?_, ?_, ?_, ?_, ?_, ?_, ?_, ?_, ?_⟩
  · rw [hout, List.any_append, hsany "proxy-connection" (by decide) (by decide), hfa]
    decide
  · rw [hout, List.any_append, hsany "transfer-encoding" (by decide) (by decide), hfa]
    decide
  · rw [hout, List.any_append, hsany "authorization" (by decide) (by decide), hfa]
    decide
  · rw [hout, List.any_append, hfa]
    simp [show (("host" : String) == "host") = true from rfl]
  · rw [houtl, lastCI_append, hl_host]
  · rw [hout, List.any_append, hfa]
    simp [show (("cookie" : String) == "cookie") = true from rfl]
  · rw [houtl, lastCI_append, hl_cookie, hcn]
    simp [cookieHeaderValue, jsTemplate]
  · rw [hout, List.any_append, hfa]
    simp [show (("x-clickhouse-user" : String) == "x-clickhouse-user") = true from rfl]
  · rw [houtl, lastCI_append, hl_user]
  · rw [hout, List.any_append, hfa]
    simp [show (("x-clickhouse-key" : String) == "x-clickhouse-key") = true from rfl]
  · rw [houtl, lastCI_append, hl_key]
  · intro l hlow n1 n2 n3 n4 n5 n6 n7
    have hfl_none : lastCI four l = none := by
      have b1 : (lowerStr "Host" == l) = false := by
        rw [show lowerStr "Host" = "host" from rfl]
        exact beq_eq_false_iff_ne.mpr (Ne.symm n3)
      have b2 : (lowerStr "Cookie" == l) = false := by
        rw [show lowerStr "Cookie" = "cookie" from rfl]
        exact beq_eq_false_iff_ne.mpr (Ne.symm n5)
      have b3 : (lowerStr "X-ClickHouse-User" == l) = false := by
        rw [show lowerStr "X-ClickHouse-User" = "x-clickhouse-user" from rfl]
        exact beq_eq_false_iff_ne.mpr (Ne.symm n6)
      have b4 : (lowerStr "X-ClickHouse-Key" == l) = false := by
        rw [show lowerStr "X-ClickHouse-Key" = "x-clickhouse-key" from rfl]
        exact beq_eq_false_iff_ne.mpr (Ne.symm n7)
      simp [hfour, lastCI, b1, b2, b3, b4]
    have hstrip : stripKey l = false := by
      unfold stripKey
      rw [hlow]
      rw [beq_eq_false_iff_ne.mpr n1, beq_eq_false_iff_ne.mpr n2,
        beq_eq_false_iff_ne.mpr n3, beq_eq_false_iff_ne.mpr n4]
      rfl
    rw [houtl, lastCI_append, hfl_none]
    have hcopy := copyFold_lastCI inbound [] l hlc (by simp) hlow hstrip
    rw [show copyHeaders inbound =
      inbound.foldl (fun m p => if stripKey p.1 then m else jsSet m p.1 p.2) []
      from rfl, hcopy]
    cases h : lastCI inbound l <;> simp [h, lastCI]

/-- Witness for the outbound header-set theorem at a concrete request that
tries to smuggle host, authorization, cookie and transfer-encoding
headers. -/
theorem outbound_header_set_spec_witness :
    countCI (outboundHeaders cfgEx "tok"
      [("accept", "*/*"), ("host", "localhost:9090"),
       ("authorization", "Basic Zm9v"), ("cookie", "a=b"),
       ("transfer-encoding", "chunked")]) "cookie" = 1 ∧
    lastCI (outboundHeaders cfgEx "tok"
      [("accept", "*/*"), ("host", "localhost:9090"),
       ("authorization", "Basic Zm9v"), ("cookie", "a=b"),
       ("transfer-encoding", "chunked")]) "cookie" =
      some "CF_Authorization=tok" ∧
    countCI (outboundHeaders cfgEx "tok"
      [("accept", "*/*"), ("host", "localhost:9090"),
       ("authorization", "Basic Zm9v"), ("cookie", "a=b"),
       ("transfer-encoding", "chunked")]) "authorization" = 0 ∧
    countCI (outboundHeaders cfgEx "tok"
      [("accept", "*/*"), ("host", "localhost:9090"),
       ("authorization", "Basic Zm9v"), ("cookie", "a=b"),
       ("transfer-encoding", "chunked")]) "transfer-encoding" = 0 ∧
    lastCI (outboundHeaders cfgEx "tok"
      [("accept", "*/*"), ("host", "localhost:9090"),
       ("authorization", "Basic Zm9v"), ("cookie", "a=b"),
       ("transfer-encoding", "chunked")]) "host" = some "db.example.com" := by
  have h := outbound_header_set_spec cfgEx "tok"
    [("accept", "*/*"), ("host", "localhost:9090"),
     ("authorization", "Basic Zm9v"), ("cookie", "a=b"),
     ("transfer-encoding", "chunked")] "CF_Authorization" (by decide) rfl
  exact ⟨h.2.2.2.2.2.1, h.2.2.2.2.2.2.1, h.2.2.1, h.2.1, h.2.2.2.2.1⟩

/-- C9 (amended): no defaults are applied to the optional keys.  With
cookieName absent the injected cookie header uses the literal name
undefined; with tokenCacheDurationMs absent a successful fetch stores a
NaN expiry, so every subsequent call misses the cache and fetches
again. -/
theorem no_defaults_applied :
    (∀ tok : String, cookieHeaderValue none tok = "undefined=" ++ tok) ∧
    (∀ (s : CacheState) (now : Nat) (r : ExecResult) (tok : String),
      (tokenTruthy s.cachedToken && beforeExpiry now s.tokenExpiry) = false →
      fetchToken r = some tok →
      (getToken s now none r).state.tokenExpiry = none ∧
      ∀ (now2 : Nat) (dur2 : Option Nat) (r2 : ExecResult),
        (getToken (getToken s now none r).state now2 dur2 r2).fetchCalls = 1) := by
  refine ⟨fun tok => rfl, ?_⟩
  intro s now r tok hmiss hfetch
  have hstate : getToken s now none r = ⟨some tok, ⟨some tok, none⟩, 1⟩ := by
    simp [getToken, hmiss, hfetch]
  refine ⟨by rw [hstate], ?_⟩
  intro now2 dur2 r2
  rw [hstate]
  simp only [getToken, beforeExpiry, Bool.and_false]
  cases h2 : fetchToken r2 <;> simp [h2]

/-- Witness for the no-defaults theorem at a concrete fetch. -/
theorem no_defaults_applied_witness :
    cookieHeaderValue none "tok" = "undefined=tok" ∧
    (getToken ⟨none, some 0⟩ 5 none (.ok "t" "")).state.tokenExpiry = none :=
  ⟨no_defaults_applied.1 "tok",
    (no_defaults_applied.2 ⟨none, some 0⟩ 5 (.ok "t" "") "t"
      (by decide) (by decide)).1⟩

/-- C9 counterexample: absent optional keys do not behave like their
documented defaults: the cookie header name becomes the literal string
undefined rather than CF_Authorization, and after a successful fetch at
time 0 with an absent duration the very next call at time 1 fetches again,
while the documented default duration 300000 would serve the cache. -/
theorem defaults_claim_false :
    cookieHeaderValue none "tok" = "undefined=tok" ∧
    cookieHeaderValue (some "CF_Authorization") "tok" = "CF_Authorization=tok" ∧
    (("undefined=tok" : String) == "CF_Authorization=tok") = false ∧
    (getToken ⟨some "t", none⟩ 1 (some 0) .execError).fetchCalls = 1 ∧
    (getToken ⟨some "t", some 300000⟩ 1 (some 0) .execError).fetchCalls = 0 := by
  refine ⟨rfl, rfl, rfl, ?_, ?_⟩ <;> decide
